import Mathlib

/-!
Shallow embedding of the AnyVideo-Downloader orchestration layer
(`app.py`, `security.py`) and proofs about the specified claims.

Python strings are modelled as Lean `String`s (sequences of code points);
Python numbers appearing in progress events (byte counts, speeds, ETAs,
timestamps) are modelled as `ℚ`, which models both Python ints and the
exact values of the floats that appear in practice.  External collaborators
(the `re` regex engine used for `BLOCKED_PATTERNS`, `urllib.parse.urlparse`,
`bleach.clean`, `os.remove`) are modelled as explicit function parameters,
universally quantified in the theorems.
-/

/-! ## String helpers (models of Python `str` operations) -/

/-- Model of `needle` being a prefix of `hay` (character lists). -/
def charsStart : List Char → List Char → Bool
  | [], _ => true
  | _ :: _, [] => false
  | a :: as, b :: bs => a == b && charsStart as bs

/-- Model of Python's `needle in hay` substring test (character lists). -/
def charsContain (needle : List Char) : List Char → Bool
  | [] => charsStart needle []
  | c :: t => charsStart needle (c :: t) || charsContain needle t

/-- Model of Python's `sub in s` substring containment on strings. -/
def strContains (s sub : String) : Bool := charsContain sub.data s.data

/-- Model of Python's `s.startswith(pre)`. -/
def strStarts (s pre : String) : Bool := charsStart pre.data s.data

/-- Model of Python's slicing `s[:n]` (by code points). -/
def pyTake (s : String) (n : Nat) : String := ⟨s.data.take n⟩

/-- Model of Python's `s.replace('\x00', '')`: removing NUL characters. -/
def stripNull (s : String) : String := ⟨s.data.filter (fun c => !(c == '\x00'))⟩

/-- Model of Python's `s.strip()`: drop whitespace from both ends. -/
def pyStrip (s : String) : String :=
  ⟨((s.data.dropWhile Char.isWhitespace).reverse.dropWhile Char.isWhitespace).reverse⟩

/-- Model of Python's `s.lower()` (ASCII case folding). -/
def pyLower (s : String) : String := ⟨s.data.map Char.toLower⟩

/-! ## Decimal representation of a natural number

Models Python's decimal formatting of a non-negative `int`, as used by the
f-string `f"download_{int(time.time() * 1000)}"` in `start_download`. -/

/-- Little-endian decimal digits of `n`, with explicit fuel so the
definition is structural (the fuel `n` itself always suffices). -/
def decReprAux : Nat → Nat → List Nat
  | _, 0 => []
  | 0, _ + 1 => []
  | fuel + 1, n + 1 => (n + 1) % 10 :: decReprAux fuel ((n + 1) / 10)

/-- Little-endian decimal digits of `n`. -/
def decRepr (n : Nat) : List Nat := decReprAux n n

/-- The character for a single decimal digit. -/
def digitChar (d : Nat) : Char := Char.ofNat (48 + d)

/-- Decimal string of a natural number, exactly as Python's `str(n)`. -/
def natToDecimal (n : Nat) : String :=
  if n = 0 then "0" else ⟨((decRepr n).map digitChar).reverse⟩

theorem decReprAux_eq_digits (fuel : Nat) :
    ∀ n : Nat, n ≤ fuel → decReprAux fuel n = Nat.digits 10 n := by
  induction fuel with
  | zero =>
    intro n hn
    interval_cases n
    simp [decReprAux]
  | succ fuel ih =>
    intro n hn
    match n with
    | 0 => simp [decReprAux]
    | m + 1 =>
      have hdiv : (m + 1) / 10 ≤ fuel := by
        have := Nat.div_lt_self (Nat.succ_pos m) (by norm_num : 1 < 10)
        omega
      rw [decReprAux, ih _ hdiv,
        Nat.digits_def' (by norm_num : 1 < 10) (Nat.succ_pos m)]

theorem decRepr_eq_digits (n : Nat) : decRepr n = Nat.digits 10 n :=
  decReprAux_eq_digits n n (Nat.le_refl n)

theorem decRepr_mem_lt (n d : Nat) (hd : d ∈ decRepr n) : d < 10 := by
  rw [decRepr_eq_digits] at hd
  exact Nat.digits_lt_base (by norm_num) hd

theorem digitChar_toNat (d : Nat) (h : d < 10) : (digitChar d).toNat = 48 + d := by
  interval_cases d <;> decide

theorem digitChar_isDigit (d : Nat) (h : d < 10) : (digitChar d).isDigit = true := by
  interval_cases d <;> decide

theorem digitChar_not_whitespace (d : Nat) (h : d < 10) :
    (digitChar d).isWhitespace = false := by
  interval_cases d <;> decide

theorem digitChar_not_null (d : Nat) (h : d < 10) : (digitChar d == '\x00') = false := by
  interval_cases d <;> decide

theorem digitChar_inj (d1 d2 : Nat) (h1 : d1 < 10) (h2 : d2 < 10)
    (h : digitChar d1 = digitChar d2) : d1 = d2 := by
  have ht := congrArg Char.toNat h
  rw [digitChar_toNat d1 h1, digitChar_toNat d2 h2] at ht
  omega

theorem map_digitChar_inj :
    ∀ l1 l2 : List Nat, (∀ d ∈ l1, d < 10) → (∀ d ∈ l2, d < 10) →
      l1.map digitChar = l2.map digitChar → l1 = l2
  | [], [], _, _, _ => rfl
  | [], _ :: _, _, _, h => by simp at h
  | _ :: _, [], _, _, h => by simp at h
  | a :: as, b :: bs, h1, h2, h => by
    simp only [List.map_cons, List.cons.injEq] at h
    have ha : a = b := digitChar_inj a b (h1 a (by simp)) (h2 b (by simp)) h.1
    have := map_digitChar_inj as bs (fun d hd => h1 d (by simp [hd]))
      (fun d hd => h2 d (by simp [hd])) h.2
    simp [ha, this]

theorem decRepr_map_eq_single_zero (n : Nat) (h : (decRepr n).map digitChar = ['0']) :
    n = 0 := by
  have hn1 : decRepr n = [0] := by
    rcases hd : decRepr n with _ | ⟨d, ds⟩
    · rw [hd] at h; simp at h
    · rw [hd] at h
      rcases ds with _ | ⟨d2, ds2⟩
      · simp only [List.map_cons, List.map_nil, List.cons.injEq, and_true] at h
        have hdlt : d < 10 := decRepr_mem_lt n d (by rw [hd]; simp)
        have ht := congrArg Char.toNat h
        rw [digitChar_toNat d hdlt] at ht
        have h0 : ('0' : Char).toNat = 48 := by decide
        rw [h0] at ht
        have : d = 0 := by omega
        simp [this]
      · simp at h
  have := Nat.ofDigits_digits 10 n
  rw [← decRepr_eq_digits, hn1] at this
  simpa [Nat.ofDigits] using this.symm

theorem natToDecimal_inj (a b : Nat) (h : natToDecimal a = natToDecimal b) : a = b := by
  unfold natToDecimal at h
  by_cases ha : a = 0 <;> by_cases hb : b = 0
  · omega
  · rw [if_pos ha, if_neg hb] at h
    have hdata := congrArg String.data h
    simp only [String.data] at hdata
    have hmap : (decRepr b).map digitChar = ['0'] := by
      have := congrArg List.reverse hdata
      simpa using this.symm
    exact absurd (decRepr_map_eq_single_zero b hmap) hb
  · rw [if_neg ha, if_pos hb] at h
    have hdata := congrArg String.data h
    simp only [String.data] at hdata
    have hmap : (decRepr a).map digitChar = ['0'] := by
      have := congrArg List.reverse hdata
      simpa using this
    exact absurd (decRepr_map_eq_single_zero a hmap) ha
  · rw [if_neg ha, if_neg hb] at h
    have hdata := congrArg String.data h
    simp only [String.data] at hdata
    have hrev := List.reverse_injective hdata
    have hmap := map_digitChar_inj (decRepr a) (decRepr b)
      (fun d hd => decRepr_mem_lt a d hd) (fun d hd => decRepr_mem_lt b d hd) hrev
    have h1 := Nat.ofDigits_digits 10 a
    have h2 := Nat.ofDigits_digits 10 b
    rw [← decRepr_eq_digits] at h1 h2
    rw [← h1, ← h2, hmap]

theorem natToDecimal_ne_nil (n : Nat) : (natToDecimal n).data ≠ [] := by
  unfold natToDecimal
  by_cases hn : n = 0
  · simp [hn]
  · rw [if_neg hn]
    simp only [String.data, ne_eq, List.reverse_eq_nil_iff, List.map_eq_nil_iff]
    rw [decRepr_eq_digits]
    exact Nat.digits_ne_nil_iff_ne_zero.mpr hn

theorem natToDecimal_mem_digit (n : Nat) (c : Char) (hc : c ∈ (natToDecimal n).data) :
    ∃ d, d < 10 ∧ c = digitChar d := by
  unfold natToDecimal at hc
  by_cases hn : n = 0
  · rw [if_pos hn] at hc
    refine ⟨0, by norm_num, ?_⟩
    have : c = '0' := by simpa using hc
    rw [this]
    decide
  · rw [if_neg hn] at hc
    simp only [String.data, List.mem_reverse, List.mem_map] at hc
    obtain ⟨d, hd, hdc⟩ := hc
    exact ⟨d, decRepr_mem_lt n d hd, hdc.symm⟩

/-! ## SecurityValidator (`security.py`)

`validate_url` is embedded with two external collaborators as parameters:
`blocked` models the `re.search` loop over `BLOCKED_PATTERNS` (the Python
regex engine is external; the source applies it to `url.lower()`), and
`parse` models `urllib.parse.urlparse` (returning `none` when it raises).
`sanitize_string` takes `clean`, modelling `bleach.clean(text, tags=[],
strip=True)`. -/

namespace SecurityValidator

/-- Result of `urllib.parse.urlparse`, restricted to the fields the
validator reads: `parsed.scheme` and `parsed.hostname`. -/
structure ParsedUrl where
  scheme : String
  hostname : Option String
deriving DecidableEq

/-- The `ALLOWED_SCHEMES` constant. -/
def ALLOWED_SCHEMES : List String := ["http", "https"]

/-- The `MAX_URL_LENGTH` constant. -/
def MAX_URL_LENGTH : Nat := 2048

/-- Embedding of `SecurityValidator.validate_url` (security.py lines 46-99).
Returns the `(is_valid, error_message)` pair of the source, with Python's
`None` as `Option.none`. -/
def validate_url (blocked : String → Bool) (parse : String → Option ParsedUrl)
    (url : String) : Bool × Option String :=
  if url = "" then (false, some "URL is required")
  else if MAX_URL_LENGTH < url.length then (false, some "URL too long")
  else if blocked (pyLower url) then (false, some "URL contains suspicious content")
  else
    match parse url with
    | none => (false, some "Invalid URL format")
    | some parsed =>
      if parsed.scheme ∈ ALLOWED_SCHEMES then
        match parsed.hostname with
        | some hostname =>
          let hl := pyLower hostname
          if hl = "localhost" || hl = "127.0.0.1" || hl = "0.0.0.0" || hl = "::1" then
            (false, some "Local URLs are not allowed")
          else if strStarts hl "192.168." || strStarts hl "10." || strStarts hl "172." then
            (false, some "Private IP addresses are not allowed")
          else if strContains hl "169.254.169.254" then
            (false, some "Metadata endpoints are not allowed")
          else (true, none)
        | none => (true, none)
      else (false, some "Only http, https URLs are allowed")

/-- Embedding of `SecurityValidator.sanitize_string` (security.py lines
101-125): truncate to `max_length` code points, apply `bleach.clean`
(the `clean` parameter), remove NUL bytes, strip surrounding whitespace. -/
def sanitize_string (clean : String → String) (text : String) (max_length : Nat) : String :=
  if text = "" then ""
  else pyStrip (stripNull (clean (pyTake text max_length)))

/-- Embedding of `SecurityValidator.validate_quality` (security.py lines
127-148): returns `(is_valid, sanitized_quality)`. -/
def validate_quality (quality : String) : Bool × String :=
  let allowed_qualities := ["best", "4k", "1080p", "720p", "480p"]
  if quality = "" then (true, "best")
  else
    let q := pyStrip (pyLower quality)
    if q ∈ allowed_qualities then (true, q) else (false, "best")

/-- Embedding of `SecurityValidator.validate_format` (security.py lines
150-171): returns `(is_valid, sanitized_format)`. -/
def validate_format (format_type : String) : Bool × String :=
  let allowed_formats := ["video", "audio"]
  if format_type = "" then (true, "video")
  else
    let f := pyStrip (pyLower format_type)
    if f ∈ allowed_formats then (true, f) else (false, "video")

end SecurityValidator

/-- C1: every URL whose hostname is `localhost`, `127.0.0.1`, `0.0.0.0` or
`::1`, or starts with `10.`, `172.` or `192.168.`, or contains
`169.254.169.254`, is declared invalid by `validate_url` with a non-empty
error message, for every behaviour of the regex collaborator `blocked` and
whatever the parser returned for the URL (the hostname condition is stated
on the lower-cased hostname, which is what both the claim's literal
hostnames and the source's check amount to). -/
theorem validate_url_rejects_private_hosts
    (blocked : String → Bool) (parse : String → Option SecurityValidator.ParsedUrl)
    (url : String) (p : SecurityValidator.ParsedUrl) (h : String)
    (hp : parse url = some p) (hh : p.hostname = some h)
    (hforb : pyLower h = "localhost" ∨ pyLower h = "127.0.0.1" ∨
      pyLower h = "0.0.0.0" ∨ pyLower h = "::1" ∨
      strStarts (pyLower h) "10." = true ∨ strStarts (pyLower h) "172." = true ∨
      strStarts (pyLower h) "192.168." = true ∨
      strContains (pyLower h) "169.254.169.254" = true) :
    (SecurityValidator.validate_url blocked parse url).1 = false ∧
    ∃ m, (SecurityValidator.validate_url blocked parse url).2 = some m ∧ m ≠ "" := by
  unfold SecurityValidator.validate_url
  by_cases h1 : url = ""
  · rw [if_pos h1]
    exact ⟨rfl, "URL is required", rfl, by decide⟩
  rw [if_neg h1]
  by_cases h2 : SecurityValidator.MAX_URL_LENGTH < url.length
  · rw [if_pos h2]
    exact ⟨rfl, "URL too long", rfl, by decide⟩
  rw [if_neg h2]
  by_cases h3 : blocked (pyLower url) = true
  · rw [if_pos h3]
    exact ⟨rfl, "URL contains suspicious content", rfl, by decide⟩
  rw [if_neg h3, hp]
  dsimp only
  by_cases h4 : p.scheme ∈ SecurityValidator.ALLOWED_SCHEMES
  · rw [if_pos h4, hh]
    dsimp only
    by_cases h5 : (pyLower h = "localhost" || pyLower h = "127.0.0.1" ||
        pyLower h = "0.0.0.0" || pyLower h = "::1") = true
    · rw [if_pos h5]
      exact ⟨rfl, "Local URLs are not allowed", rfl, by decide⟩
    rw [if_neg h5]
    by_cases h6 : (strStarts (pyLower h) "192.168." || strStarts (pyLower h) "10." ||
        strStarts (pyLower h) "172.") = true
    · rw [if_pos h6]
      exact ⟨rfl, "Private IP addresses are not allowed", rfl, by decide⟩
    rw [if_neg h6]
    by_cases h7 : strContains (pyLower h) "169.254.169.254" = true
    · rw [if_pos h7]
      exact ⟨rfl, "Metadata endpoints are not allowed", rfl, by decide⟩
    exfalso
    simp only [Bool.or_eq_true, decide_eq_true_eq, not_or] at h5 h6
    rcases hforb with hf | hf | hf | hf | hf | hf | hf | hf
    · exact h5.1.1.1 hf
    · exact h5.1.1.2 hf
    · exact h5.1.2 hf
    · exact h5.2 hf
    · exact h6.1.2 hf
    · exact h6.2 hf
    · exact h6.1.1 hf
    · exact h7 hf
  · rw [if_neg h4]
    exact ⟨rfl, "Only http, https URLs are allowed", rfl, by decide⟩

/-- Witness for C1: `validate_url` rejects `http://localhost/x` (with the
parser behaving as `urlparse` does on it and no blocked pattern firing),
with the non-empty message `Local URLs are not allowed`. -/
theorem validate_url_rejects_private_hosts_witness :
    (SecurityValidator.validate_url (fun _ => false)
      (fun _ => some ⟨"http", some "localhost"⟩) "http://localhost/x").1 = false ∧
    ∃ m, (SecurityValidator.validate_url (fun _ => false)
      (fun _ => some ⟨"http", some "localhost"⟩) "http://localhost/x").2 = some m ∧
      m ≠ "" :=
  validate_url_rejects_private_hosts (fun _ => false)
    (fun _ => some ⟨"http", some "localhost"⟩) "http://localhost/x"
    ⟨"http", some "localhost"⟩ "localhost" rfl rfl (Or.inl (by decide))

/-! ## Job records and progress events (`app.py`)

The `download_progress[download_id]` dict is modelled as a `JobRec`:
keys that may be absent are `Option`-valued (absent = `none`).  The two
event sources that mutate a record after submission are
`DownloadLogger.error` (app.py lines 75-77) and `progress_hook`
(app.py lines 79-116); both are combined into `apply_event`. -/

/-- Model of `os.path.basename` on POSIX paths: the part after the last
slash. -/
def splitSlash : List Char → List String → List Char → List String
  | acc, parts, [] => (parts ++ [⟨acc.reverse⟩])
  | acc, parts, '/' :: t => splitSlash [] (parts ++ [⟨acc.reverse⟩]) t
  | acc, parts, c :: t => splitSlash (c :: acc) parts t

/-- Model of `os.path.basename(p)` (POSIX). -/
def basename (p : String) : String := (splitSlash [] [] p.data).getLastD ""

/-- The `status` values a job record takes in `app.py`. -/
inductive Status
  | queued | starting | downloading | processing | completed | error
deriving DecidableEq

/-- The in-memory job record `download_progress[download_id]`. -/
structure JobRec where
  id : String
  url : String
  status : Status
  progress : ℚ
  quality : String
  format : String
  started_at : String
  filename : Option String := none
  downloaded : Option ℚ := none
  total : Option ℚ := none
  speed : Option ℚ := none
  eta : Option ℚ := none
  error : Option String := none
  title : Option String := none
  thumbnail : Option String := none
  duration : Option ℚ := none
  uploader : Option String := none
  completed_at : Option String := none

/-- The record inserted by `start_download` (app.py lines 349-357):
state `queued`, progress `0`, no other keys. -/
def initial_record (id url quality format started_at : String) : JobRec :=
  { id := id, url := url, status := .queued, progress := 0,
    quality := quality, format := format, started_at := started_at }

/-- Which of the two total-bytes keys a `downloading` event carries:
`total_bytes`, only `total_bytes_estimate`, or neither. -/
inductive HookTotal
  | bytes (t : ℚ)
  | estimate (t : ℚ)
  | absent

/-- The total carried by a `downloading` event, if any. -/
def totalValue : HookTotal → Option ℚ
  | .bytes t => some t
  | .estimate t => some t
  | .absent => none

/-- An event delivered to a job record after submission: a message on the
yt-dlp logger's `error` channel, or a progress-hook dict with status
`downloading`, `finished` or `error`.  `Option` fields model dict keys
that may be absent (`d.get(...)` in the source). -/
inductive Event
  | logger_error (msg : String)
  | hook_downloading (filename : Option String) (total : HookTotal)
      (downloaded_bytes : Option ℚ) (speed : Option ℚ) (eta : Option ℚ)
  | hook_finished (filename : Option String)
  | hook_error (err : Option String)

/-- Embedding of `DownloadLogger.error` and `progress_hook`: how one event
updates the job record.  Mirrors app.py lines 75-77 and 79-116; the
`total_bytes` and `total_bytes_estimate` branches are the two syntactically
identical branches of the source.  (In ℚ, division by zero yields 0 where
Python would raise `ZeroDivisionError`; the theorems only divide by
positive totals.) -/
def apply_event (rec : JobRec) (e : Event) : JobRec :=
  match e with
  | .logger_error msg => { rec with status := .error, error := some msg }
  | .hook_downloading fn total downloaded speed eta =>
    let rec1 := { rec with status := .downloading,
                           filename := some (basename (fn.getD "Unknown")) }
    match total with
    | .bytes t =>
      let dl := downloaded.getD 0
      { rec1 with progress := dl / t * 100, downloaded := some dl, total := some t,
                  speed := some (speed.getD 0), eta := some (eta.getD 0) }
    | .estimate t =>
      let dl := downloaded.getD 0
      { rec1 with progress := dl / t * 100, downloaded := some dl, total := some t,
                  speed := some (speed.getD 0), eta := some (eta.getD 0) }
    | .absent => rec1
  | .hook_finished fn =>
    { rec with status := .processing, progress := 100,
               filename := some (basename (fn.getD "Unknown")) }
  | .hook_error err =>
    { rec with status := .error, error := some (err.getD "Unknown error") }

/-- The status that each event unconditionally writes into the record. -/
def status_of_event : Event → Status
  | .logger_error _ => .error
  | .hook_downloading _ _ _ _ _ => .downloading
  | .hook_finished _ => .processing
  | .hook_error _ => .error

/-- The id allocated by `start_download` (app.py line 346):
`f"download_{int(time.time() * 1000)}"` applied to the millisecond
timestamp. -/
def make_download_id (millis : Nat) : String := "download_" ++ natToDecimal millis

/-! ## Claims C2-C5 -/

/-- Counterexample to C2: two submissions that occur within the same
millisecond read the same `int(time.time() * 1000)` value, and the id is a
function of that value alone, so both submissions are issued the very same
id string — the ids are not distinct. -/
theorem same_millis_id_collision :
    make_download_id 1700000000000 = make_download_id 1700000000000 := rfl

/-- C2 (amended): two job submissions receive distinct ids whenever their
millisecond timestamps `int(time.time() * 1000)` differ; submissions
falling in the same millisecond collide. -/
theorem make_download_id_inj (t1 t2 : Nat) (h : t1 ≠ t2) :
    make_download_id t1 ≠ make_download_id t2 := by
  intro he
  apply h
  apply natToDecimal_inj
  unfold make_download_id at he
  have hd := congrArg String.data he
  rw [String.data_append, String.data_append] at hd
  have hdd := List.append_cancel_left hd
  calc natToDecimal t1 = ⟨(natToDecimal t1).data⟩ := rfl
    _ = ⟨(natToDecimal t2).data⟩ := by rw [hdd]
    _ = natToDecimal t2 := rfl

/-- Witness for the amended C2: submissions at millisecond timestamps 1
and 2 receive distinct ids. -/
theorem make_download_id_inj_witness :
    (1 : Nat) ≠ 2 ∧ make_download_id 1 ≠ make_download_id 2 :=
  ⟨by decide, make_download_id_inj 1 2 (by decide)⟩

/-- A job record that has reached the terminal state `completed`. -/
def completed_rec : JobRec :=
  { id := "download_1", url := "https://example.com/v", status := .completed,
    progress := 100, quality := "best", format := "video", started_at := "t0",
    filename := some "v.mp4", downloaded := some 100, total := some 100,
    speed := some 0, eta := some 0 }

/-- Counterexample to C3: the event handlers write the state
unconditionally, so a record in the terminal state `completed` is moved
back to the non-terminal state `downloading` by a later `downloading`
hook event, and to the other terminal state `error` by a later logger
error event. -/
theorem terminal_state_regression :
    completed_rec.status = Status.completed ∧
    (apply_event completed_rec
      (Event.hook_downloading none HookTotal.absent none none none)).status =
      Status.downloading ∧
    (apply_event completed_rec (Event.logger_error "boom")).status = Status.error :=
  ⟨rfl, rfl, rfl⟩

/-- C3 (amended): the state written by an event depends on the event
alone, never on the current state — the handlers contain no terminal-state
guard.  Consequently a record in state `error` stays in `error` under
further error events, but `downloading` and `finished` events overwrite
any state, including the terminal ones. -/
theorem apply_event_status_from_event (rec : JobRec) (e : Event) :
    (apply_event rec e).status = status_of_event e := by
  cases e with
  | logger_error m => rfl
  | hook_downloading fn tot d s eta => cases tot <;> rfl
  | hook_finished fn => rfl
  | hook_error m => rfl

/-- A freshly submitted job record, as `start_download` creates it. -/
def fresh_rec : JobRec :=
  initial_record "download_1" "https://example.com/v" "best" "video" "t0"

/-- Counterexample to C4: two `downloading` events with non-decreasing
`downloaded_bytes` (50 then 60) but different totals (100 then 1000) make
the record's progress fall from 50 to 6. -/
theorem progress_decreases_on_total_change :
    (apply_event fresh_rec
      (Event.hook_downloading none (HookTotal.bytes 100) (some 50) none none)).progress
      = 50 ∧
    (apply_event (apply_event fresh_rec
        (Event.hook_downloading none (HookTotal.bytes 100) (some 50) none none))
      (Event.hook_downloading none (HookTotal.bytes 1000) (some 60) none none)).progress
      = 6 ∧
    ((50 : ℚ) ≤ 60) ∧ ((6 : ℚ) < 50) := by
  refine ⟨?_, ?_, by norm_num, by norm_num⟩ <;>
    norm_num [apply_event, fresh_rec, initial_record]

/-- Arithmetic core of the amended C4: at a fixed positive total, the
progress formula of `progress_hook` is monotone in the downloaded bytes. -/
theorem progress_formula_mono (t a b : ℚ) (ht : 0 < t) (hab : a ≤ b) :
    a / t * 100 ≤ b / t * 100 := by
  have h1 : a / t ≤ b / t := by gcongr
  exact mul_le_mul_of_nonneg_right h1 (by norm_num)

/-- C4 (amended): progress is non-decreasing across consecutive
`downloading` events with non-decreasing `downloaded_bytes` *provided the
two events carry the same (positive) total* — in whichever of the two
total fields; when the reported total changes between events the progress
value can decrease. -/
theorem progress_monotone_fixed_total (rec : JobRec) (fn1 fn2 : Option String)
    (tot1 tot2 : HookTotal) (d1 d2 s1 s2 e1 e2 : Option ℚ) (t : ℚ)
    (ht : 0 < t) (h1 : totalValue tot1 = some t) (h2 : totalValue tot2 = some t)
    (hd : d1.getD 0 ≤ d2.getD 0) :
    (apply_event rec (Event.hook_downloading fn1 tot1 d1 s1 e1)).progress ≤
      (apply_event (apply_event rec (Event.hook_downloading fn1 tot1 d1 s1 e1))
        (Event.hook_downloading fn2 tot2 d2 s2 e2)).progress := by
  cases tot1 with
  | bytes t1 =>
    cases tot2 with
    | bytes t2 =>
      simp only [totalValue, Option.some.injEq] at h1 h2
      subst h1; subst h2
      exact progress_formula_mono _ _ _ ht hd
    | estimate t2 =>
      simp only [totalValue, Option.some.injEq] at h1 h2
      subst h1; subst h2
      exact progress_formula_mono _ _ _ ht hd
    | absent => simp [totalValue] at h2
  | estimate t1 =>
    cases tot2 with
    | bytes t2 =>
      simp only [totalValue, Option.some.injEq] at h1 h2
      subst h1; subst h2
      exact progress_formula_mono _ _ _ ht hd
    | estimate t2 =>
      simp only [totalValue, Option.some.injEq] at h1 h2
      subst h1; subst h2
      exact progress_formula_mono _ _ _ ht hd
    | absent => simp [totalValue] at h2
  | absent => simp [totalValue] at h1

/-- Witness for the amended C4: downloaded bytes 10 then 20 at the fixed
total 100 (reported first as `total_bytes`, then as
`total_bytes_estimate`) give non-decreasing progress. -/
theorem progress_monotone_fixed_total_witness :
    (apply_event fresh_rec
      (Event.hook_downloading none (HookTotal.bytes 100) (some 10) none none)).progress ≤
      (apply_event (apply_event fresh_rec
          (Event.hook_downloading none (HookTotal.bytes 100) (some 10) none none))
        (Event.hook_downloading none (HookTotal.estimate 100) (some 20) none none)).progress :=
  progress_monotone_fixed_total fresh_rec none none (HookTotal.bytes 100)
    (HookTotal.estimate 100) (some 10) (some 20) none none none none 100
    (by norm_num) rfl rfl (by norm_num)

/-- Counterexample to C5: a `downloading` event reporting 150 downloaded
bytes against a total estimate of 100 is copied verbatim into the record,
leaving it with `downloaded = 150 > 100 = total` and `progress = 150 >
100`. -/
theorem downloaded_exceeds_total :
    (apply_event fresh_rec
      (Event.hook_downloading none (HookTotal.estimate 100) (some 150) none none)).downloaded
      = some 150 ∧
    (apply_event fresh_rec
      (Event.hook_downloading none (HookTotal.estimate 100) (some 150) none none)).total
      = some 100 ∧
    (apply_event fresh_rec
      (Event.hook_downloading none (HookTotal.estimate 100) (some 150) none none)).progress
      = 150 ∧
    ¬ ((150 : ℚ) ≤ 100) ∧ ((100 : ℚ) < 150) := by
  refine ⟨?_, ?_, ?_, by norm_num, by norm_num⟩ <;>
    norm_num [apply_event, fresh_rec, initial_record]

/-- C5 (amended): the handler copies the event's byte counters into the
record without clamping, so after a `downloading` event carrying a
(positive) total, `downloaded ≤ total` holds in the record exactly when
the event itself reported `downloaded_bytes ≤ total` — and then the
derived progress is at most 100. -/
theorem byte_counters_consistent_event (rec : JobRec) (fn : Option String)
    (tot : HookTotal) (d s e : Option ℚ) (t : ℚ)
    (htot : totalValue tot = some t) (ht : 0 < t) (hd : d.getD 0 ≤ t) :
    (apply_event rec (Event.hook_downloading fn tot d s e)).downloaded
      = some (d.getD 0) ∧
    (apply_event rec (Event.hook_downloading fn tot d s e)).total = some t ∧
    (apply_event rec (Event.hook_downloading fn tot d s e)).progress ≤ 100 := by
  have hle : d.getD 0 / t * 100 ≤ 100 := by
    have h1 : d.getD 0 / t ≤ 1 := (div_le_one ht).mpr hd
    calc d.getD 0 / t * 100 ≤ 1 * 100 := mul_le_mul_of_nonneg_right h1 (by norm_num)
      _ = 100 := by norm_num
  cases tot with
  | bytes t1 =>
    simp only [totalValue, Option.some.injEq] at htot
    subst htot
    exact ⟨rfl, rfl, hle⟩
  | estimate t1 =>
    simp only [totalValue, Option.some.injEq] at htot
    subst htot
    exact ⟨rfl, rfl, hle⟩
  | absent => simp [totalValue] at htot

/-- Witness for the amended C5: an event with 80 downloaded of 100 total
leaves the record with `downloaded = 80 ≤ 100 = total` and progress at
most 100. -/
theorem byte_counters_consistent_event_witness :
    (apply_event fresh_rec
      (Event.hook_downloading none (HookTotal.bytes 100) (some 80) none none)).downloaded
      = some ((some (80 : ℚ)).getD 0) ∧
    (apply_event fresh_rec
      (Event.hook_downloading none (HookTotal.bytes 100) (some 80) none none)).total
      = some 100 ∧
    (apply_event fresh_rec
      (Event.hook_downloading none (HookTotal.bytes 100) (some 80) none none)).progress
      ≤ 100 :=
  byte_counters_consistent_event fresh_rec none (HookTotal.bytes 100) (some 80)
    none none 100 rfl (by norm_num) (by norm_num)

/-! ## Format selection, error classification, progress endpoint, sweeper -/

/-- Embedding of the quality/format selection in `download_video`
(app.py lines 185-228): the value stored into `ydl_opts['format']`, or
`none` when no branch sets the key.  Note the absence of a `480p` branch
in the source. -/
def ydl_format (format_type quality : String) : Option String :=
  if format_type = "video" then
    if quality = "best" then
      some "bestvideo[ext=mp4]+bestaudio[ext=m4a]/bestvideo+bestaudio/best[ext=mp4]/best"
    else if quality = "4k" then
      some "bestvideo[height>=2160][ext=mp4]+bestaudio[ext=m4a]/bestvideo[height>=2160]+bestaudio/best[height>=2160]/bestvideo+bestaudio/best"
    else if quality = "1080p" then
      some "bestvideo[height<=1080][ext=mp4]+bestaudio[ext=m4a]/bestvideo[height<=1080]+bestaudio/best[height<=1080]/best"
    else if quality = "720p" then
      some "bestvideo[height<=720][ext=mp4]+bestaudio[ext=m4a]/bestvideo[height<=720]+bestaudio/best[height<=720]/best"
    else none
  else if format_type = "audio" then
    some "bestaudio/best"
  else none

/-- The individual selectors of a yt-dlp format fallback chain, i.e. the
string split on `/`. -/
def chain_selectors (s : String) : List String := splitSlash [] [] s.data

/-- The user-facing failure categories of the `except` handler in
`download_video` (app.py lines 258-277). -/
inductive ErrorKind
  | drm | login | unsupported | notFound404 | extraction | cloudflare | unknown
deriving DecidableEq

/-- Embedding of the failure-classification rules of `download_video`
(app.py lines 264-277): the ordered `if/elif` chain over the exception
message, first match winning. -/
def classify_error (msg : String) : ErrorKind :=
  if strContains msg "DRM" || strContains (pyLower msg) "drm protection" then .drm
  else if strContains (pyLower msg) "need to log in" ||
      strContains (pyLower msg) "login required" ||
      strContains (pyLower msg) "cookies" || strContains (pyLower msg) "nsfw" then .login
  else if strContains msg "Unsupported URL" ||
      strContains msg "No video formats found" then .unsupported
  else if strContains msg "HTTP Error 404" then .notFound404
  else if strContains msg "Unable to extract" ||
      strContains msg "Failed to parse" then .extraction
  else if strContains msg "Cloudflare" || strContains msg "HTTP Error 403" ||
      strContains msg "impersonate" then .cloudflare
  else .unknown

/-- The error string stored into the record for each category: the fixed
user-facing messages of app.py lines 264-277, and the raw exception
message unchanged in the fall-through `else`. -/
def error_report (msg : String) : String :=
  match classify_error msg with
  | .drm => "DRM-protected content cannot be downloaded. Use official app (Netflix, Disney+, etc.)"
  | .login => "Login required. Export cookies from browser. See COOKIE_GUIDE.md"
  | .unsupported => "Site not supported or outdated. Update yt-dlp: pip install --upgrade yt-dlp"
  | .notFound404 => "Video not found (404). Video may be deleted or URL incorrect."
  | .extraction => "Extraction failed. Update yt-dlp: pip install --upgrade yt-dlp"
  | .cloudflare => "Cloudflare protected. Install: pip install curl-cffi, then restart"
  | .unknown => msg

/-- Embedding of the shape check `re.match(r'^download_\d+$', download_id)`
in `get_progress` (app.py line 382): the literal `download_` followed by
one or more digits, nothing else. -/
def matches_download_id (s : String) : Bool :=
  charsStart "download_".data s.data &&
    (!(s.data.drop 9).isEmpty && (s.data.drop 9).all (fun c => c.isDigit))

/-- The three outcomes of `GET /api/progress/<download_id>` (app.py lines
373-388): 400 invalid id, 200 with the record stored under `id`, or 404. -/
inductive ProgressResponse
  | invalidId
  | record (id : String)
  | notFound
deriving DecidableEq

/-- Embedding of `get_progress` (app.py lines 376-388): sanitize the
client-supplied id (`clean` models `bleach.clean`), check its shape, then
look the sanitized id up in the registry (modelled by its membership
function). -/
def get_progress (clean : String → String) (registry : String → Bool)
    (download_id : String) : ProgressResponse :=
  let id := SecurityValidator.sanitize_string clean download_id 50
  if matches_download_id id = false then .invalidId
  else if registry id then .record id
  else .notFound

/-- A file of the output directory as the sweeper sees it: name,
last-modified time (seconds), and whether it is a regular file. -/
structure FsFile where
  name : String
  mtime : ℚ
  is_file : Bool
deriving DecidableEq

/-- What the sweeper did to one file on a tick. -/
inductive FileAction
  | removed | removeFailed | kept | skipped
deriving DecidableEq

/-- The per-file body of the sweeper loop in `cleanup_old_downloads`
(app.py lines 637-649): a regular file older than 30 seconds has
`os.remove` attempted on it (`removeOk` models whether that call
succeeds; its failure is caught by the per-file `try/except`), any other
entry is left alone. -/
def file_action (removeOk : String → Bool) (now : ℚ) (f : FsFile) : FileAction :=
  if f.is_file then
    if 30 < now - f.mtime then
      if removeOk f.name then .removed else .removeFailed
    else .kept
  else .skipped

/-- Embedding of the sweeper tick `cleanup_old_downloads` (app.py lines
628-654): the loop over `os.listdir`, recorded as the action taken per
file name. -/
def cleanup_old_downloads (removeOk : String → Bool) (now : ℚ) :
    List FsFile → List (String × FileAction)
  | [] => []
  | f :: rest =>
    (f.name, file_action removeOk now f) :: cleanup_old_downloads removeOk now rest

/-! ## Claims C6-C10 -/

/-- Counterexample to C6: the raw id `download_123 ` (trailing space) does
not match `^download_\d+$`, yet `get_progress` does not return the
400 invalid-id response: sanitization strips the space (with
`bleach.clean` acting as the identity on this markup-free string), the
sanitized id matches, and the registry lookup succeeds. -/
theorem sanitize_turns_invalid_id_valid :
    matches_download_id "download_123 " = false ∧
    SecurityValidator.sanitize_string (fun s => s) "download_123 " 50 = "download_123" ∧
    get_progress (fun s => s) (fun s => s == "download_123") "download_123 " =
      ProgressResponse.record "download_123" := by
  refine ⟨by decide, by decide, by decide⟩

/-- C6 (amended): `get_progress` returns the 400 invalid-id response, for
every content of the registry and every behaviour of `bleach.clean`,
exactly for those client ids whose *sanitized* form fails the
`^download_\d+$` shape check — sanitization can turn a non-matching raw
id into a matching one (e.g. by stripping surrounding whitespace, tags or
NUL bytes), in which case the lookup proceeds. -/
theorem invalid_sanitized_id_gives_400 (clean : String → String)
    (registry : String → Bool) (raw : String)
    (h : matches_download_id (SecurityValidator.sanitize_string clean raw 50) = false) :
    get_progress clean registry raw = ProgressResponse.invalidId := by
  unfold get_progress
  simp [h]

/-- Witness for the amended C6: the id `abc` stays non-matching after
sanitization and receives the 400 response even with every id present in
the registry. -/
theorem invalid_sanitized_id_gives_400_witness :
    matches_download_id (SecurityValidator.sanitize_string (fun s => s) "abc" 50) = false ∧
    get_progress (fun s => s) (fun _ => true) "abc" = ProgressResponse.invalidId :=
  ⟨by decide, invalid_sanitized_id_gives_400 (fun s => s) (fun _ => true) "abc" (by decide)⟩

/-- C7, evaluated at the failing input: the submission validator accepts
quality `480p`, but `download_video` has no `480p` branch, so for a video
download at quality `480p` the `format` key is never set (`none`) —
whereas each of the four qualities that do have a branch gets a fallback
chain whose last selector is `best`. -/
theorem ydl_format_480p_unset :
    SecurityValidator.validate_quality "480p" = (true, "480p") ∧
    ydl_format "video" "480p" = none ∧
    ydl_format "video" "best" ≠ none ∧
    (ydl_format "video" "best").map (fun s => (chain_selectors s).getLastD "")
      = some "best" ∧
    ydl_format "video" "4k" ≠ none ∧
    (ydl_format "video" "4k").map (fun s => (chain_selectors s).getLastD "")
      = some "best" ∧
    ydl_format "video" "1080p" ≠ none ∧
    (ydl_format "video" "1080p").map (fun s => (chain_selectors s).getLastD "")
      = some "best" ∧
    ydl_format "video" "720p" ≠ none ∧
    (ydl_format "video" "720p").map (fun s => (chain_selectors s).getLastD "")
      = some "best" := by
  refine ⟨by decide, rfl, by decide, by decide, by decide, by decide, by decide,
    by decide, by decide, by decide⟩

/-- C8: the ordered first-match-wins classification maps
`DRM protection detected` to the DRM category, `HTTP Error 404: Not Found`
to the 404 category, and an unrecognized message to the unknown category,
whose reported text is the raw message unchanged. -/
theorem classify_error_spec :
    classify_error "DRM protection detected" = ErrorKind.drm ∧
    classify_error "HTTP Error 404: Not Found" = ErrorKind.notFound404 ∧
    classify_error "some never seen message" = ErrorKind.unknown ∧
    error_report "some never seen message" = "some never seen message" := by
  refine ⟨by decide, by decide, by decide, by decide⟩

theorem cleanup_length (removeOk : String → Bool) (now : ℚ) :
    ∀ files : List FsFile,
      (cleanup_old_downloads removeOk now files).length = files.length
  | [] => rfl
  | f :: rest => by
    simp [cleanup_old_downloads, cleanup_length removeOk now rest]

theorem cleanup_mem (removeOk : String → Bool) (now : ℚ) :
    ∀ (files : List FsFile), ∀ f ∈ files,
      (f.name, file_action removeOk now f) ∈ cleanup_old_downloads removeOk now files
  | f0 :: rest, f, hf => by
    rcases List.mem_cons.mp hf with h | h
    · subst h
      exact List.mem_cons_self _ _
    · exact List.mem_cons_of_mem _ (cleanup_mem removeOk now rest f h)

/-- C9: on a sweeper tick over any directory listing, every file receives
its action independently of the others (one entry per input file, and a
failing `os.remove` on one file is caught per-file, so the rest are still
processed); a regular file strictly older than the 30-second threshold is
removed whenever its removal succeeds, and a file aged at most the
threshold is kept. -/
theorem cleanup_tick_spec (removeOk : String → Bool) (now : ℚ)
    (files : List FsFile) (f : FsFile) (hf : f ∈ files) :
    (f.name, file_action removeOk now f) ∈ cleanup_old_downloads removeOk now files ∧
    (cleanup_old_downloads removeOk now files).length = files.length ∧
    (f.is_file = true → 30 < now - f.mtime → removeOk f.name = true →
      file_action removeOk now f = FileAction.removed) ∧
    (f.is_file = true → now - f.mtime ≤ 30 →
      file_action removeOk now f = FileAction.kept) := by
  refine ⟨cleanup_mem removeOk now files f hf, cleanup_length removeOk now files, ?_, ?_⟩
  · intro hfile hold hok
    simp [file_action, hfile, hold, hok]
  · intro hfile hyoung
    have h30 : ¬ (30 < now - f.mtime) := not_lt.mpr hyoung
    simp [file_action, hfile, h30]

/-- An old regular file (age 100 seconds at tick time 100). -/
def old_file : FsFile := { name := "a.mp4", mtime := 0, is_file := true }

/-- A young regular file (age 20 seconds at tick time 100). -/
def young_file : FsFile := { name := "b.mp4", mtime := 80, is_file := true }

/-- Witness for C9: a tick at time 100 over `[a.mp4 (mtime 0), b.mp4
(mtime 80)]` with removals succeeding processes `a.mp4`, removing it. -/
theorem cleanup_tick_spec_witness :
    ((old_file.name, file_action (fun _ => true) 100 old_file) ∈
      cleanup_old_downloads (fun _ => true) 100 [old_file, young_file]) ∧
    (cleanup_old_downloads (fun _ => true) 100 [old_file, young_file]).length
      = [old_file, young_file].length ∧
    (old_file.is_file = true → 30 < 100 - old_file.mtime →
      (fun _ : String => true) old_file.name = true →
      file_action (fun _ => true) 100 old_file = FileAction.removed) ∧
    (old_file.is_file = true → 100 - old_file.mtime ≤ 30 →
      file_action (fun _ => true) 100 old_file = FileAction.kept) :=
  cleanup_tick_spec (fun _ => true) 100 [old_file, young_file] old_file
    (List.mem_cons_self _ _)

/-! ## Claim C10: freshly issued ids survive the progress endpoint -/

theorem charsStart_append (pre rest : List Char) : charsStart pre (pre ++ rest) = true := by
  induction pre with
  | nil => rfl
  | cons a t ih => simp [charsStart, ih]

theorem make_download_id_data (t : Nat) :
    (make_download_id t).data = "download_".data ++ (natToDecimal t).data := by
  unfold make_download_id
  exact String.data_append _ _

/-- Any id issued by `start_download` matches `^download_\d+$`. -/
theorem matches_make_download_id (t : Nat) :
    matches_download_id (make_download_id t) = true := by
  unfold matches_download_id
  rw [make_download_id_data]
  have h1 : charsStart "download_".data ("download_".data ++ (natToDecimal t).data)
      = true := charsStart_append _ _
  have h2 : ("download_".data ++ (natToDecimal t).data).drop 9 = (natToDecimal t).data := by
    have h9 : ("download_" : String).data.length = 9 := by decide
    rw [← h9, List.drop_left]
  have h3 : ((natToDecimal t).data).isEmpty = false := by
    rcases hd : (natToDecimal t).data with _ | ⟨c, cs⟩
    · exact absurd hd (natToDecimal_ne_nil t)
    · rfl
  have h4 : ((natToDecimal t).data).all (fun c => c.isDigit) = true := by
    rw [List.all_eq_true]
    intro c hc
    obtain ⟨d, hd10, rfl⟩ := natToDecimal_mem_digit t c hc
    exact digitChar_isDigit d hd10
  rw [h2, h1, h3, h4]
  rfl

theorem pyStrip_no_ws (l : List Char)
    (hhead : ∀ c ∈ l.head?, c.isWhitespace = false)
    (hlast : ∀ c ∈ l.getLast?, c.isWhitespace = false) :
    pyStrip ⟨l⟩ = ⟨l⟩ := by
  unfold pyStrip
  rcases l with _ | ⟨a, t⟩
  · rfl
  have ha : a.isWhitespace = false := hhead a rfl
  have h1 : (a :: t).dropWhile Char.isWhitespace = a :: t := by
    simp [List.dropWhile, ha]
  rw [h1]
  rcases hrev : (a :: t).reverse with _ | ⟨c, cs⟩
  · simp at hrev
  have hc : (a :: t).getLast? = some c := by
    rw [← List.head?_reverse, hrev]
    rfl
  have hcw : c.isWhitespace = false := hlast c hc
  have h2 : (c :: cs).dropWhile Char.isWhitespace = c :: cs := by
    simp [List.dropWhile, hcw]
  rw [h2, ← hrev, List.reverse_reverse]

/-- An issued id whose length fits the 50-character truncation bound (any
realistically issuable id is 22 characters or fewer) passes through
`sanitize_string` unchanged, whenever `bleach.clean` leaves this
markup-free alphanumeric string alone. -/
theorem sanitize_make_download_id (clean : String → String) (t : Nat)
    (hclean : clean (make_download_id t) = make_download_id t)
    (hlen : (make_download_id t).length ≤ 50) :
    SecurityValidator.sanitize_string clean (make_download_id t) 50
      = make_download_id t := by
  unfold SecurityValidator.sanitize_string
  have hne : ¬ (make_download_id t = "") := by
    intro h0
    have hd := congrArg String.data h0
    rw [make_download_id_data] at hd
    simp at hd
  rw [if_neg hne]
  have htake : pyTake (make_download_id t) 50 = make_download_id t := by
    unfold pyTake
    have h : (make_download_id t).data.take 50 = (make_download_id t).data :=
      List.take_of_length_le hlen
    rw [h]
  rw [htake, hclean]
  have hnull : stripNull (make_download_id t) = make_download_id t := by
    unfold stripNull
    have h : (make_download_id t).data.filter (fun c => !(c == '\x00'))
        = (make_download_id t).data := by
      rw [List.filter_eq_self]
      intro c hc
      rw [make_download_id_data] at hc
      rcases List.mem_append.mp hc with h | h
      · fin_cases h <;> decide
      · obtain ⟨d, hd10, rfl⟩ := natToDecimal_mem_digit t c h
        simp [digitChar_not_null d hd10]
    rw [h]
  rw [hnull]
  have hstr := pyStrip_no_ws (make_download_id t).data ?_ ?_
  · exact hstr
  · intro c hc
    rw [make_download_id_data] at hc
    have hcd : 'd' = c := by
      simpa using hc
    rw [← hcd]
    decide
  · intro c hc
    rw [make_download_id_data] at hc
    rw [List.getLast?_append_of_ne_nil _ (natToDecimal_ne_nil t)] at hc
    obtain ⟨hne2, rfl⟩ := List.mem_getLast?_eq_getLast hc
    have hmem := List.getLast_mem hne2
    obtain ⟨d, hd10, hcd⟩ := natToDecimal_mem_digit t _ hmem
    rw [hcd]
    exact digitChar_not_whitespace d hd10

/-- C10: an id issued by `start_download` has the shape
`download_<digits>`, so (whenever `bleach.clean` leaves this markup-free
string alone and the id fits the 50-character truncation bound, as every
realistically issuable id does) it is unchanged by the progress endpoint's
sanitization, passes the `^download_\d+$` shape check, and is looked up in
the registry under exactly the issued string. -/
theorem issued_id_roundtrip (clean : String → String) (registry : String → Bool)
    (t : Nat)
    (hclean : clean (make_download_id t) = make_download_id t)
    (hlen : (make_download_id t).length ≤ 50)
    (hreg : registry (make_download_id t) = true) :
    matches_download_id (make_download_id t) = true ∧
    SecurityValidator.sanitize_string clean (make_download_id t) 50
      = make_download_id t ∧
    get_progress clean registry (make_download_id t)
      = ProgressResponse.record (make_download_id t) := by
  have h1 := matches_make_download_id t
  have h2 := sanitize_make_download_id clean t hclean hlen
  refine ⟨h1, h2, ?_⟩
  unfold get_progress
  simp [h2, h1, hreg]

/-- Witness for C10: the id issued at millisecond timestamp 123 round-trips
through the progress endpoint and is found in a registry containing it. -/
theorem issued_id_roundtrip_witness :
    matches_download_id (make_download_id 123) = true ∧
    SecurityValidator.sanitize_string (fun s => s) (make_download_id 123) 50
      = make_download_id 123 ∧
    get_progress (fun s => s) (fun s => s == "download_123") (make_download_id 123)
      = ProgressResponse.record (make_download_id 123) :=
  issued_id_roundtrip (fun s => s) (fun s => s == "download_123") 123
    rfl (by decide) (by decide)
